import Mathlib

/-!
Shallow embedding of the ink! escrow contract `simple_contract` (src/lib.rs).

The contract storage (`SimpleContract`) holds four mappings keyed by account,
two role fields, and the `price`/`asset` scratch fields.  Account ids, hashes
and balances are opaque in the contract logic; we model `AccountId` and `Hash`
as `Nat`, and `Balance` (ink's `u128`) as `Nat`, making the one place the
source performs checked `u128` arithmetic (the addition in
`buyer_deposit_money`) an explicit bound check against `2 ^ 128`.

Each ink! message is embedded as a function `SimpleContract → ... →
Except ContractError SimpleContract`.  A `panic!`/failed `assert!` in a
message traps the call; the hosting runtime (pallet-contracts, outside this
repository's source) then reverts every storage write of the call, so an
`.error` outcome carries no state and `observedState` returns the pre-call
state.  Likewise `terminate_contract` and the host's refusal to dispatch
calls to a dead instance are outside the source: both are modelled from the
spec via the `terminated` flag checked at the top of every message.
-/

namespace Escrow

abbrev AccountId := Nat

abbrev Hash := Nat

abbrev Balance := Nat

/-- Bound of ink's `Balance` type (`u128`); the deposit addition is checked
against it, as ink! contracts are built with overflow checks enabled. -/
def u128Bound : Nat := 2 ^ 128

/-- Empty `Mapping`, as laid out by `SpreadAllocate`. -/
def emptyMap {β : Type} : AccountId → Option β := fun _ => none

/-- Model of `Mapping::insert`. -/
def mapInsert {β : Type} (m : AccountId → Option β) (k : AccountId) (v : β) :
    AccountId → Option β :=
  fun a => if a = k then some v else m a

/-- Model of `Mapping::remove`. -/
def mapRemove {β : Type} (m : AccountId → Option β) (k : AccountId) :
    AccountId → Option β :=
  fun a => if a = k then none else m a

/-- Storage struct of the contract (src/lib.rs lines 18-35), plus the
`terminated` flag modelled from the spec: `terminate_contract` destroys the
instance and the host rejects all later calls. -/
structure SimpleContract where
  seller_fund : AccountId → Option Balance
  seller_asset : AccountId → Option (List (Hash × Balance))
  buyer_fund : AccountId → Option Balance
  buyer_asset : AccountId → Option (List (Hash × Balance))
  seller : AccountId
  buyer : AccountId
  price : Balance
  asset : Hash
  terminated : Bool

/-- Panic / trap conditions of the messages (each `panic!`, failed `assert!`,
out-of-bounds index, checked-arithmetic overflow, and the host's rejection of
a call to a terminated instance). -/
inductive ContractError where
  | assetExists
  | youOwnYourAsset
  | sellerCannotDo
  | notAvailableYet
  | noAssetOrFund
  | notEnoughFund
  | indexOutOfBounds
  | arithmeticOverflow
  | terminatedInstance
deriving DecidableEq, Repr

/-- Constructor `new_sell` (lines 40-49): caller becomes seller and receives
the singleton listing `[(init_item, init_price)]`; all other storage is
default-allocated (`buyer` is the default account id, modelled as `0`). -/
def new_sell (caller : AccountId) (init_item : Hash) (init_price : Balance) :
    SimpleContract :=
  { seller_fund := emptyMap
    seller_asset := mapInsert emptyMap caller [(init_item, init_price)]
    buyer_fund := emptyMap
    buyer_asset := emptyMap
    seller := caller
    buyer := 0
    price := init_price
    asset := init_item
    terminated := false }

/-- Constructor `sell_default` (lines 52-60): everything default-allocated
(`asset = Hash::default()`, `price = 0`, empty mappings, default role ids). -/
def sell_default : SimpleContract :=
  { seller_fund := emptyMap
    seller_asset := emptyMap
    buyer_fund := emptyMap
    buyer_asset := emptyMap
    seller := 0
    buyer := 0
    price := 0
    asset := 0
    terminated := false }

/-- Message `insert_asset` (lines 64-75).  The source's `let _x =
self.get_asset_data(caller)` is a pure read with no effect and is dropped.
If the caller already has a listing the call panics with "Asset exists";
otherwise the singleton listing is installed.  The `seller` field is not
touched. -/
def insert_asset (s : SimpleContract) (caller : AccountId) (item : Hash)
    (price : Balance) : Except ContractError SimpleContract :=
  if s.terminated then .error .terminatedInstance
  else if (s.seller_asset caller).isSome then .error .assetExists
  else .ok { s with seller_asset := mapInsert s.seller_asset caller [(item, price)] }

/-- Message `get_asset_data` (lines 79-81), read-only. -/
def get_asset_data (s : SimpleContract) (id : AccountId) :
    Except ContractError (Option (List (Hash × Balance))) :=
  if s.terminated then .error .terminatedInstance
  else .ok (s.seller_asset id)

/-- Message `check_fund` (lines 85-87), read-only. -/
def check_fund (s : SimpleContract) (id : AccountId) :
    Except ContractError (Option Balance) :=
  if s.terminated then .error .terminatedInstance
  else .ok (s.buyer_fund id)

/-- Message `total_status` (lines 90-120), read-only.  Both branches index
the stored vector at position 0 (`x[0].0` and a re-read
`...unwrap_or_default()[0].1`), which panics when the vector is empty.
Rust's `{:?}` debug formatting of a `Hash` is modelled by `toString`. -/
def total_status (s : SimpleContract) (id : AccountId) :
    Except ContractError String :=
  if s.terminated then .error .terminatedInstance
  else if id = s.seller then
    match s.seller_asset id with
    | some x =>
      match x with
      | [] => .error .indexOutOfBounds
      | (item, _) :: _ =>
        match (s.seller_asset id).getD [] with
        | [] => .error .indexOutOfBounds
        | (_, price) :: _ =>
          .ok ("Current item: " ++ toString item ++ ". Current price: " ++
            toString price ++ ". Fund: " ++ toString ((s.seller_fund id).getD 0))
    | none => .ok ("No item data. Fund: " ++ toString ((s.seller_fund id).getD 0))
  else if id = s.buyer then
    match s.buyer_asset id with
    | some x =>
      match x with
      | [] => .error .indexOutOfBounds
      | (item, _) :: _ =>
        match (s.buyer_asset id).getD [] with
        | [] => .error .indexOutOfBounds
        | (_, price) :: _ =>
          .ok ("Current item: " ++ toString item ++ ". Current price: " ++
            toString price ++ ". Fund: " ++ toString ((s.buyer_fund id).getD 0))
    | none => .ok ("No item data. Fund: " ++ toString ((s.buyer_fund id).getD 0))
  else .ok "No data"

/-- Message `buyer_deposit_money` (lines 124-134).  The source computes
`fund = buyer_fund[caller].unwrap_or_default() + money` (checked `u128`
addition), removes and re-inserts the caller's buyer balance, and only then
checks the preconditions, panicking on violation; the panic traps the call
and the host reverts the already-applied writes, so the error branches carry
no state.  The intermediate states `s1`, `s2`, `s3` mirror the source's
write order. -/
def buyer_deposit_money (s : SimpleContract) (caller id : AccountId)
    (money : Balance) : Except ContractError SimpleContract :=
  if s.terminated then .error .terminatedInstance
  else if (s.buyer_fund caller).getD 0 + money < u128Bound then
    let fund := (s.buyer_fund caller).getD 0 + money
    let s1 := { s with buyer_fund := mapRemove s.buyer_fund caller }
    let s2 := { s1 with buyer_fund := mapInsert s1.buyer_fund caller fund }
    if caller = id then .error .youOwnYourAsset
    else if caller = s2.seller then .error .sellerCannotDo
    else
      let s3 := { s2 with buyer := caller }
      if (s3.seller_asset id).isSome then .ok s3
      else .error .notAvailableYet
  else .error .arithmeticOverflow

/-- Message `settle` (lines 138-162).  Asserts that the caller has a listing
and `id` has a buyer balance ("No asset or fund"), reads `item`/`price` from
index 0 of the caller's listing vector (panicking when it is empty), fails
with "Not enough fund" when `fund < price`, and otherwise performs the
four-table update and terminates the contract. -/
def settle (s : SimpleContract) (caller id : AccountId) :
    Except ContractError SimpleContract :=
  if s.terminated then .error .terminatedInstance
  else
    match s.seller_asset caller, s.buyer_fund id with
    | some l, some fund =>
      match l with
      | [] => .error .indexOutOfBounds
      | (item, price) :: _ =>
        if fund < price then .error .notEnoughFund
        else
          let money := fund - price
          let s1 := { s with buyer_asset := mapInsert s.buyer_asset id [(item, price)] }
          let s2 :=
            if 0 < money then
              { s1 with buyer_fund := mapInsert (mapRemove s1.buyer_fund id) id money }
            else
              { s1 with buyer_fund := mapRemove s1.buyer_fund id }
          let s3 := { s2 with seller_asset := mapRemove s2.seller_asset caller }
          let s4 := { s3 with seller_fund := mapInsert s3.seller_fund caller price }
          .ok { s4 with terminated := true }
    | _, _ => .error .noAssetOrFund

/-- Modelled from the spec: the observable state after a call.  A panic traps
the call and the hosting runtime reverts every storage write of the call
("a call either completes and commits, or fails and must leave the state
byte-for-byte as before the call"), so an `.error` outcome observably leaves
the pre-call state. -/
def observedState (s : SimpleContract) (r : Except ContractError SimpleContract) :
    SimpleContract :=
  match r with
  | .ok s' => s'
  | .error _ => s

/-- One successful mutating call.  Failed calls observably leave the state
unchanged, so reachability is closure under the successful calls only. -/
inductive Step : SimpleContract → SimpleContract → Prop where
  | insertAsset {s s' : SimpleContract} (caller : AccountId) (item : Hash)
      (price : Balance) (h : insert_asset s caller item price = .ok s') : Step s s'
  | deposit {s s' : SimpleContract} (caller id : AccountId) (money : Balance)
      (h : buyer_deposit_money s caller id money = .ok s') : Step s s'
  | settleStep {s s' : SimpleContract} (caller id : AccountId)
      (h : settle s caller id = .ok s') : Step s s'

/-- States reachable from either constructor by successful calls. -/
inductive Reachable : SimpleContract → Prop where
  | newSell (caller : AccountId) (item : Hash) (price : Balance) :
      Reachable (new_sell caller item price)
  | sellDefault : Reachable sell_default
  | step {s s' : SimpleContract} (hr : Reachable s) (hs : Step s s') : Reachable s'

/-- Invariant carried through reachability: every stored asset vector is a
singleton, and while the instance is alive the seller fund table is empty
(its only writer is the final write of a successful `settle`). -/
def Inv (s : SimpleContract) : Prop :=
  (∀ a l, s.seller_asset a = some l → l.length = 1) ∧
  (∀ a l, s.buyer_asset a = some l → l.length = 1) ∧
  (s.terminated = false → ∀ a, s.seller_fund a = none)

/-- Concrete state: buyer 2 has deposited 100 against seller 1's listing
`(7, 20)` created by `new_sell`. -/
def exampleFunded : SimpleContract :=
  match buyer_deposit_money (new_sell 1 7 20) 2 1 100 with
  | .ok t => t
  | .error _ => sell_default

/-- Concrete state: `exampleFunded` after seller 1 settled against buyer 2. -/
def exampleSettled : SimpleContract :=
  match settle exampleFunded 1 2 with
  | .ok t => t
  | .error _ => sell_default

/-- Concrete state after a successful `insert_asset` on `sell_default` by
party 1. -/
def exampleInserted : SimpleContract :=
  match insert_asset sell_default 1 7 20 with
  | .ok t => t
  | .error _ => sell_default

/-- Concrete unreachable state with a pre-existing seller fund entry for
party 1, a listing `(7, 10)` for party 1, and a buyer fund of 10 for
party 2. -/
def statePriorSellerFund : SimpleContract :=
  { sell_default with
      seller := 1
      seller_fund := mapInsert emptyMap 1 5
      seller_asset := mapInsert emptyMap 1 [(7, 10)]
      buyer_fund := mapInsert emptyMap 2 10 }

/-- Concrete state where buyer 2's balance sits at the `u128` maximum while
seller 1 has a listing. -/
def stateMaxFund : SimpleContract :=
  { sell_default with
      seller := 1
      seller_asset := mapInsert emptyMap 1 [(7, 20)]
      buyer_fund := mapInsert emptyMap 2 (u128Bound - 1) }

/-- Seller fund entry of account `a` after `settle s caller id`, `none` when
the call fails. -/
def sellerFundAfterSettle (s : SimpleContract) (caller id a : AccountId) :
    Option (Option Balance) :=
  match settle s caller id with
  | .ok t => some (t.seller_fund a)
  | .error _ => none

/-- Seller role field after `insert_asset`, `none` when the call fails. -/
def sellerAfterInsert (s : SimpleContract) (caller : AccountId) (item : Hash)
    (price : Balance) : Option AccountId :=
  match insert_asset s caller item price with
  | .ok t => some t.seller
  | .error _ => none

/-- Error produced by `buyer_deposit_money`, `none` on success. -/
def depositError (s : SimpleContract) (caller id : AccountId) (money : Balance) :
    Option ContractError :=
  match buyer_deposit_money s caller id money with
  | .ok _ => none
  | .error e => some e

/-- Characterization of a successful `insert_asset` call: it happens only on a
live instance whose caller has no listing, and installs the singleton listing
while touching nothing else. -/
theorem insert_asset_ok {s s' : SimpleContract} {caller : AccountId} {item : Hash}
    {price : Balance} (h : insert_asset s caller item price = .ok s') :
    s.terminated = false ∧ s.seller_asset caller = none ∧
      s' = { s with seller_asset := mapInsert s.seller_asset caller [(item, price)] } := by
  unfold insert_asset at h
  split at h
  · exact absurd h (by simp)
  next ht =>
    split at h
    · exact absurd h (by simp)
    next hns =>
      refine ⟨by simpa using ht, Option.not_isSome_iff_eq_none.mp hns, ?_⟩
      exact (Except.ok.inj h).symm

/-- Characterization of a successful `buyer_deposit_money` call: instance live,
no `u128` overflow, caller distinct from the target and from the seller, target
listed; the caller's buyer balance becomes the sum and the caller becomes the
recorded buyer. -/
theorem deposit_ok {s s' : SimpleContract} {caller id : AccountId} {money : Balance}
    (h : buyer_deposit_money s caller id money = .ok s') :
    s.terminated = false ∧ (s.buyer_fund caller).getD 0 + money < u128Bound ∧
      caller ≠ id ∧ caller ≠ s.seller ∧ (s.seller_asset id).isSome = true ∧
      s' = { s with
              buyer_fund := mapInsert (mapRemove s.buyer_fund caller) caller
                              ((s.buyer_fund caller).getD 0 + money)
              buyer := caller } := by
  unfold buyer_deposit_money at h
  split at h
  · exact absurd h (by simp)
  next ht =>
    split at h
    case isFalse => exact absurd h (by simp)
    next hov =>
      dsimp only at h
      split at h
      · exact absurd h (by simp)
      next hid =>
        split at h
        · exact absurd h (by simp)
        next hsel =>
          split at h
          case isFalse => exact absurd h (by simp)
          next hlist =>
            refine ⟨by simpa using ht, hov, hid, hsel, hlist, ?_⟩
            exact (Except.ok.inj h).symm

/-- Characterization of a successful `settle` call: instance live, the caller
holds a non-empty listing vector, the target has a buyer balance at least the
listed price, and the post-state performs the four-table update with the
terminated flag set. -/
theorem settle_ok {s s' : SimpleContract} {caller id : AccountId}
    (h : settle s caller id = .ok s') :
    s.terminated = false ∧ ∃ item price rest fund,
      s.seller_asset caller = some ((item, price) :: rest) ∧
      s.buyer_fund id = some fund ∧ price ≤ fund ∧
      s' = { s with
              seller_fund := mapInsert s.seller_fund caller price
              seller_asset := mapRemove s.seller_asset caller
              buyer_fund :=
                (if 0 < fund - price then
                  mapInsert (mapRemove s.buyer_fund id) id (fund - price)
                 else mapRemove s.buyer_fund id)
              buyer_asset := mapInsert s.buyer_asset id [(item, price)]
              terminated := true } := by
  unfold settle at h
  split at h
  · exact absurd h (by simp)
  next ht =>
    split at h
    next l fund hl hf =>
      split at h
      · exact absurd h (by simp)
      next item price rest =>
        split at h
        · exact absurd h (by simp)
        next hlt =>
          refine ⟨by simpa using ht, item, price, rest, fund, hl, hf,
            Nat.le_of_not_lt hlt, ?_⟩
          have hs := (Except.ok.inj h).symm
          subst hs
          by_cases hm : 0 < fund - price
          · simp [hm]
          · simp [hm]
    · exact absurd h (by simp)

/-- Invariant holds in the `new_sell` initial states. -/
theorem inv_new_sell (caller : AccountId) (item : Hash) (price : Balance) :
    Inv (new_sell caller item price) := by
  refine ⟨?_, ?_, ?_⟩
  · intro a l hl
    unfold new_sell mapInsert emptyMap at hl
    simp only at hl
    split at hl
    · cases hl; rfl
    · cases hl
  · intro a l hl
    cases hl
  · intro _ a
    rfl

/-- Invariant holds in the `sell_default` initial state. -/
theorem inv_sell_default : Inv sell_default := by
  refine ⟨?_, ?_, ?_⟩
  · intro a l hl
    cases hl
  · intro a l hl
    cases hl
  · intro _ a
    rfl

/-- Invariant is preserved by every successful call. -/
theorem inv_step {s s' : SimpleContract} (hs : Step s s') (hi : Inv s) : Inv s' := by
  obtain ⟨hsa, hba, hsf⟩ := hi
  cases hs with
  | insertAsset caller item price h =>
    obtain ⟨ht, hnone, rfl⟩ := insert_asset_ok h
    refine ⟨?_, hba, ?_⟩
    · intro a l hl
      simp only [mapInsert] at hl
      split at hl
      · cases hl; rfl
      · exact hsa a l hl
    · intro h' a
      exact hsf (by simpa using ht ▸ h') a
  | deposit caller id money h =>
    obtain ⟨ht, _, _, _, _, rfl⟩ := deposit_ok h
    exact ⟨hsa, hba, fun h' a => hsf (by simp_all) a⟩
  | settleStep caller id h =>
    obtain ⟨ht, item, price, rest, fund, hl, hf, hge, rfl⟩ := settle_ok h
    refine ⟨?_, ?_, ?_⟩
    · intro a l hl'
      simp only [mapRemove] at hl'
      split at hl'
      · cases hl'
      · exact hsa a l hl'
    · intro a l hl'
      simp only [mapInsert] at hl'
      split at hl'
      · cases hl'; rfl
      · exact hba a l hl'
    · intro h' a
      cases h'

/-- Every reachable state satisfies the invariant. -/
theorem reachable_inv {s : SimpleContract} (hr : Reachable s) : Inv s := by
  induction hr with
  | newSell caller item price => exact inv_new_sell caller item price
  | sellDefault => exact inv_sell_default
  | step hr hs ih => exact inv_step hs ih

/-- C1: for every contract state and every call to `buyer_deposit_money` that
fails a precondition (caller equals the target party, caller is the seller, or
the target party has no listing), the buyer balance table observable after the
call is identical to the buyer balance table before the call: every such call
traps and the host reverts its writes. -/
theorem C1_deposit_precondition_failure_preserves_buyer_fund
    (s : SimpleContract) (caller id a : AccountId) (money : Balance)
    (hpre : caller = id ∨ caller = s.seller ∨ s.seller_asset id = none) :
    (observedState s (buyer_deposit_money s caller id money)).buyer_fund a =
      s.buyer_fund a := by
  cases hres : buyer_deposit_money s caller id money with
  | error e => rw [observedState]
  | ok s2 =>
    exfalso
    obtain ⟨-, -, hid, hsel, hlist, -⟩ := deposit_ok hres
    rcases hpre with h | h | h
    · exact hid h
    · exact hsel h
    · rw [h] at hlist
      cases hlist

/-- Witness for C1: the seller of `new_sell 1 7 20` attempts a deposit, which
fails, and party 3's buyer balance is unchanged. -/
theorem C1_witness :
    (observedState (new_sell 1 7 20)
        (buyer_deposit_money (new_sell 1 7 20) 1 2 5)).buyer_fund 3 =
      (new_sell 1 7 20).buyer_fund 3 :=
  C1_deposit_precondition_failure_preserves_buyer_fund (new_sell 1 7 20) 1 2 3 5
    (Or.inr (Or.inl rfl))

/-- C2: in every live state where the caller has the listing `[(item, price)]`
and the target has buyer balance `fund ≥ price`, `settle` succeeds and produces
exactly the specified four-table update: the target holds `[(item, price)]`,
the target's buyer balance becomes `fund - price` when positive and is removed
when zero, the caller's listing is removed, the caller's seller balance is set
to `price`, and all other entries and role fields are unchanged. -/
theorem C2_settle_success_effects
    (s : SimpleContract) (caller id a b : AccountId) (item : Hash)
    (price fund : Balance)
    (hterm : s.terminated = false)
    (hlist : s.seller_asset caller = some [(item, price)])
    (hfund : s.buyer_fund id = some fund)
    (hge : price ≤ fund) (ha : a ≠ id) (hb : b ≠ caller) :
    ∃ s', settle s caller id = .ok s' ∧
      s'.buyer_asset id = some [(item, price)] ∧
      (0 < fund - price → s'.buyer_fund id = some (fund - price)) ∧
      (fund - price = 0 → s'.buyer_fund id = none) ∧
      s'.seller_asset caller = none ∧
      s'.seller_fund caller = some price ∧
      s'.buyer_asset a = s.buyer_asset a ∧
      s'.buyer_fund a = s.buyer_fund a ∧
      s'.seller_asset b = s.seller_asset b ∧
      s'.seller_fund b = s.seller_fund b ∧
      s'.seller = s.seller ∧ s'.buyer = s.buyer ∧ s'.terminated = true := by
  cases hres : settle s caller id with
  | error e =>
    exfalso
    unfold settle at hres
    simp [hterm, hlist, hfund, Nat.not_lt.mpr hge] at hres
  | ok s2 =>
    obtain ⟨-, item', price', rest', fund', hl', hf', hge', rfl⟩ := settle_ok hres
    rw [hlist] at hl'
    rw [hfund] at hf'
    have hfe : fund = fund' := Option.some.inj hf'
    subst hfe
    have hle : ((item, price) : Hash × Balance) = (item', price') ∧
        ([] : List (Hash × Balance)) = rest' := by
      have hc := Option.some.inj hl'
      exact ⟨(List.cons.inj hc).1, (List.cons.inj hc).2⟩
    obtain ⟨hpair, hrest⟩ := hle
    obtain ⟨rfl, rfl⟩ : item = item' ∧ price = price' := Prod.mk.inj hpair
    subst hrest
    refine ⟨_, rfl, ?_, ?_, ?_, ?_, ?_, ?_, ?_, ?_, ?_, rfl, rfl, rfl⟩
    · simp [mapInsert]
    · intro hm
      simp [hm, mapInsert]
    · intro hz
      simp [hz, mapRemove]
    · simp [mapRemove]
    · simp [mapInsert]
    · simp [mapInsert, ha]
    · by_cases hm : 0 < fund - price
      · simp [hm, mapInsert, mapRemove, ha]
      · simp [hm, mapRemove, ha]
    · simp [mapRemove, hb]
    · simp [mapInsert, hb]

/-- Witness for C2: seller 1 settles the listing `(7, 20)` against buyer 2's
balance of 100, producing the holding, the change of 80, the cleared listing
and the seller balance of 20. -/
theorem C2_witness :
    settle exampleFunded 1 2 = .ok exampleSettled ∧
    exampleSettled.buyer_asset 2 = some [(7, 20)] ∧
    exampleSettled.buyer_fund 2 = some 80 ∧
    exampleSettled.seller_asset 1 = none ∧
    exampleSettled.seller_fund 1 = some 20 := by
  obtain ⟨s', hok, hba, hbf, -, hsa, hsf, -⟩ :=
    C2_settle_success_effects exampleFunded 1 2 3 4 7 20 100 rfl rfl rfl
      (by decide) (by decide) (by decide)
  have hok0 : settle exampleFunded 1 2 = .ok exampleSettled := rfl
  have hse : s' = exampleSettled := Except.ok.inj (hok.symm.trans hok0)
  subst hse
  exact ⟨hok0, hba, by simpa using hbf (by decide), hsa, hsf⟩

/-- Counterexample for C3 as stated: in a state where seller 1 already has a
seller balance entry of 5, a successful `settle` of the listing `(7, 10)` sets
the seller balance to the price 10 rather than increasing it by the price
(5 + 10): `settle` overwrites the seller balance instead of adding to it. -/
theorem C3_counterexample :
    sellerFundAfterSettle statePriorSellerFund 1 2 1 = some (some 10) ∧
    statePriorSellerFund.seller_fund 1 = some 5 ∧ (10 : Balance) ≠ 5 + 10 := by
  refine ⟨by decide, by decide, by decide⟩

/-- C3 (amended): in every reachable state in which `settle` succeeds, the
buyer balance decreases by exactly the listed price (to `fund - price`, the
entry being removed when that is zero) and the seller balance is set to exactly
the listed price; because the seller fund table is empty in every reachable
live state, this is an increase from nothing by exactly the price, so no
balance is lost or duplicated in reachable states — but the write is an
overwrite, not an increment, as the counterexample shows on an unreachable
state with a pre-existing seller balance entry. -/
theorem C3_amended_settlement_transfer
    (s : SimpleContract) (caller id : AccountId) (s' : SimpleContract)
    (hr : Reachable s) (h : settle s caller id = .ok s') :
    s.seller_fund caller = none ∧
    ∃ item price rest fund,
      s.seller_asset caller = some ((item, price) :: rest) ∧
      s.buyer_fund id = some fund ∧ price ≤ fund ∧
      s'.seller_fund caller = some price ∧
      (0 < fund - price → s'.buyer_fund id = some (fund - price)) ∧
      (fund - price = 0 → s'.buyer_fund id = none) := by
  have ht := (settle_ok h).1
  obtain ⟨-, item, price, rest, fund, hl, hf, hge, rfl⟩ := settle_ok h
  obtain ⟨-, -, hsf⟩ := reachable_inv hr
  refine ⟨hsf ht caller, item, price, rest, fund, hl, hf, hge, ?_, ?_, ?_⟩
  · simp [mapInsert]
  · intro hm
    simp [hm, mapInsert]
  · intro hz
    simp [hz, mapRemove]

/-- Witness for C3 (amended): in the reachable funded example, seller 1's fund
entry is absent before settlement and equals the price 20 after it. -/
theorem C3_witness :
    exampleFunded.seller_fund 1 = none ∧ exampleSettled.seller_fund 1 = some 20 := by
  obtain ⟨h0, item, price, rest, fund, hl, hf, -, hsf, -, -⟩ :=
    C3_amended_settlement_transfer exampleFunded 1 2 exampleSettled
      (Reachable.step (Reachable.newSell 1 7 20) (Step.deposit 2 1 100 rfl)) rfl
  have hl0 : exampleFunded.seller_asset 1 = some [(7, 20)] := rfl
  have hc := Option.some.inj (hl0.symm.trans hl)
  obtain ⟨rfl, rfl⟩ : 7 = item ∧ 20 = price := by
    have h1 := (List.cons.inj hc).1
    exact ⟨congrArg Prod.fst h1, congrArg Prod.snd h1⟩
  exact ⟨h0, hsf⟩

/-- C4: on a live instance, `settle` aborts with `noAssetOrFund` when the
caller has no listing or the target has no buyer balance entry, and aborts with
`notEnoughFund` when the target's balance is below the listed price; in every
such failing case the observable state — all four tables and the role fields —
is unchanged from before the call. -/
theorem C4_settle_failure_cases
    (s : SimpleContract) (caller id : AccountId) (item : Hash)
    (price fund : Balance) (rest : List (Hash × Balance))
    (hterm : s.terminated = false) :
    ((s.seller_asset caller = none ∨ s.buyer_fund id = none) →
       settle s caller id = .error .noAssetOrFund ∧
       observedState s (settle s caller id) = s) ∧
    (s.seller_asset caller = some ((item, price) :: rest) →
       s.buyer_fund id = some fund → fund < price →
       settle s caller id = .error .notEnoughFund ∧
       observedState s (settle s caller id) = s) := by
  constructor
  · intro hpre
    have herr : settle s caller id = .error .noAssetOrFund := by
      unfold settle
      rcases hpre with h | h
      · cases hbf : s.buyer_fund id with
        | none => simp [hterm, h, hbf]
        | some fund2 => simp [hterm, h, hbf]
      · cases hsa : s.seller_asset caller with
        | none => simp [hterm, h, hsa]
        | some l2 => simp [hterm, h, hsa]
    refine ⟨herr, ?_⟩
    rw [herr]
    exact rfl
  · intro hsa hbf hlt
    have herr : settle s caller id = .error .notEnoughFund := by
      unfold settle
      simp [hterm, hsa, hbf, hlt]
    refine ⟨herr, ?_⟩
    rw [herr]
    exact rfl

/-- Witness for C4: settling on the empty default contract fails with
`noAssetOrFund` and leaves the state untouched. -/
theorem C4_witness :
    settle sell_default 1 2 = .error .noAssetOrFund ∧
    observedState sell_default (settle sell_default 1 2) = sell_default :=
  (C4_settle_failure_cases sell_default 1 2 0 0 0 [] rfl).1 (Or.inl rfl)

/-- C5: in every reachable state each seller has at most one active listing
(every stored listing vector is a singleton), and every `insert_asset` call by
a party that already holds a listing fails with `assetExists` and observably
leaves that party's existing listing unchanged. -/
theorem C5_single_listing
    (s : SimpleContract) (hr : Reachable s) (a caller : AccountId)
    (l v : List (Hash × Balance)) (item : Hash) (price : Balance) :
    (s.seller_asset a = some l → l.length = 1) ∧
    (s.terminated = false → s.seller_asset caller = some v →
       insert_asset s caller item price = .error .assetExists ∧
       (observedState s (insert_asset s caller item price)).seller_asset caller =
         some v) := by
  obtain ⟨hsa, -, -⟩ := reachable_inv hr
  refine ⟨hsa a l, ?_⟩
  intro ht hv
  have herr : insert_asset s caller item price = .error .assetExists := by
    unfold insert_asset
    rw [if_neg (by simp [ht]), if_pos (by simp [hv])]
  refine ⟨herr, ?_⟩
  rw [herr]
  exact hv

/-- Witness for C5: seller 1 of `new_sell 1 7 20` holds the singleton listing
`[(7, 20)]`; a second `insert_asset` fails with `assetExists` and the original
listing is intact. -/
theorem C5_witness :
    ([(7, 20)] : List (Hash × Balance)).length = 1 ∧
    insert_asset (new_sell 1 7 20) 1 8 30 = .error .assetExists ∧
    (observedState (new_sell 1 7 20)
        (insert_asset (new_sell 1 7 20) 1 8 30)).seller_asset 1 = some [(7, 20)] := by
  have h := C5_single_listing (new_sell 1 7 20) (Reachable.newSell 1 7 20) 1 1
    [(7, 20)] [(7, 20)] 8 30
  exact ⟨h.1 rfl, (h.2 rfl rfl).1, (h.2 rfl rfl).2⟩

/-- Counterexample for C6 as stated: party 1 successfully calls `insert_asset`
on the default-constructed contract, yet the seller role field afterwards is
still the default account 0, not the caller 1 — `insert_asset` never records
the caller as seller. -/
theorem C6_counterexample :
    sellerAfterInsert sell_default 1 7 20 = some 0 ∧ (0 : AccountId) ≠ 1 := by
  refine ⟨by decide, by decide⟩

/-- C6 (amended): a successful `insert_asset` call leaves the seller role field
unchanged; the caller equals the recorded seller after the call only if it
already did before. -/
theorem C6_amended_insert_preserves_seller
    (s : SimpleContract) (caller : AccountId) (item : Hash) (price : Balance)
    (s' : SimpleContract) (h : insert_asset s caller item price = .ok s') :
    s'.seller = s.seller := by
  obtain ⟨-, -, rfl⟩ := insert_asset_ok h
  rfl

/-- Witness for C6 (amended): after party 1's successful `insert_asset` on the
default contract the seller field still equals the default contract's. -/
theorem C6_witness : exampleInserted.seller = sell_default.seller :=
  C6_amended_insert_preserves_seller sell_default 1 7 20 exampleInserted rfl

/-- Counterexample for C7 as stated: with buyer 2's balance at the `u128`
maximum, a deposit of 1 targeting listed seller 1 satisfies all three stated
preconditions (caller differs from target, caller is not the seller, target
has a listing) yet fails with an arithmetic overflow instead of succeeding. -/
theorem C7_counterexample :
    depositError stateMaxFund 2 1 1 = some .arithmeticOverflow ∧
    (2 : AccountId) ≠ 1 ∧ (2 : AccountId) ≠ stateMaxFund.seller ∧
    (stateMaxFund.seller_asset 1).isSome = true := by
  refine ⟨by decide, by decide, by decide, by decide⟩

/-- C7 (amended): whenever the caller differs from the target, is not the
seller, the target has a listing, and the checked `u128` addition does not
overflow, `buyer_deposit_money` succeeds, the caller's buyer balance becomes
its previous value (0 if absent) plus the amount, and the caller is recorded
as the current buyer. -/
theorem C7_amended_deposit_success
    (s : SimpleContract) (caller id : AccountId) (money : Balance)
    (hterm : s.terminated = false) (hself : caller ≠ id)
    (hseller : caller ≠ s.seller) (hlist : (s.seller_asset id).isSome = true)
    (hov : (s.buyer_fund caller).getD 0 + money < u128Bound) :
    ∃ s', buyer_deposit_money s caller id money = .ok s' ∧
      s'.buyer_fund caller = some ((s.buyer_fund caller).getD 0 + money) ∧
      s'.buyer = caller := by
  have hok : buyer_deposit_money s caller id money =
      .ok { s with
              buyer_fund := mapInsert (mapRemove s.buyer_fund caller) caller
                              ((s.buyer_fund caller).getD 0 + money)
              buyer := caller } := by
    unfold buyer_deposit_money
    simp [hterm, hov, hself, hseller, hlist]
  refine ⟨_, hok, ?_, rfl⟩
  simp [mapInsert]

/-- Witness for C7 (amended): buyer 2 deposits 100 against seller 1's listing;
the call succeeds, the balance becomes 100 and buyer 2 is recorded. -/
theorem C7_witness :
    buyer_deposit_money (new_sell 1 7 20) 2 1 100 = .ok exampleFunded ∧
    exampleFunded.buyer_fund 2 = some 100 ∧ exampleFunded.buyer = 2 := by
  obtain ⟨s', hok, hbf, hb⟩ :=
    C7_amended_deposit_success (new_sell 1 7 20) 2 1 100 rfl (by decide) (by decide)
      rfl (by decide)
  have hok0 : buyer_deposit_money (new_sell 1 7 20) 2 1 100 = .ok exampleFunded := rfl
  have hse : s' = exampleFunded := Except.ok.inj (hok.symm.trans hok0)
  subst hse
  exact ⟨hok0, by simpa using hbf, hb⟩

/-- C8: in every reachable state every entry of the seller and buyer balance
tables is a non-negative amount (balances are unsigned), and whenever `settle`
succeeds the subtraction of the price from the buyer balance is guarded by the
insufficient-funds check, so it cannot underflow: the `Nat` difference agrees
with the exact integer difference. -/
theorem C8_no_negative_balances
    (s : SimpleContract) (hr : Reachable s) (a : AccountId) (b : Balance)
    (caller id : AccountId) (s' : SimpleContract) :
    (s.seller_fund a = some b → 0 ≤ (b : Int)) ∧
    (s.buyer_fund a = some b → 0 ≤ (b : Int)) ∧
    (settle s caller id = .ok s' →
       ∃ item price rest fund,
         s.seller_asset caller = some ((item, price) :: rest) ∧
         s.buyer_fund id = some fund ∧ price ≤ fund ∧
         (fund : Int) - (price : Int) = ((fund - price : Nat) : Int)) := by
  refine ⟨fun _ => Int.natCast_nonneg b, fun _ => Int.natCast_nonneg b, ?_⟩
  intro h
  obtain ⟨-, item, price, rest, fund, hl, hf, hge, -⟩ := settle_ok h
  exact ⟨item, price, rest, fund, hl, hf, hge, (Nat.cast_sub hge).symm⟩

/-- Witness for C8: buyer 2's balance of 100 in the reachable funded example is
non-negative. -/
theorem C8_witness : (0 : Int) ≤ ((100 : Balance) : Int) :=
  (C8_no_negative_balances exampleFunded
      (Reachable.step (Reachable.newSell 1 7 20) (Step.deposit 2 1 100 rfl))
      2 100 1 2 exampleSettled).2.1 rfl

/-- C9: after a successful `settle` the instance is terminated and every
subsequent operation — `insert_asset`, `buyer_deposit_money`, `settle`, and the
queries `get_asset_data`, `check_fund`, `total_status` — is rejected. -/
theorem C9_terminality
    (s s' : SimpleContract) (caller id c i : AccountId) (item : Hash)
    (price money : Balance) (h : settle s caller id = .ok s') :
    s'.terminated = true ∧
    insert_asset s' c item price = .error .terminatedInstance ∧
    buyer_deposit_money s' c i money = .error .terminatedInstance ∧
    settle s' c i = .error .terminatedInstance ∧
    get_asset_data s' i = .error .terminatedInstance ∧
    check_fund s' i = .error .terminatedInstance ∧
    total_status s' i = .error .terminatedInstance := by
  obtain ⟨-, item0, price0, rest0, fund0, -, -, -, rfl⟩ := settle_ok h
  exact ⟨rfl, rfl, rfl, rfl, rfl, rfl, rfl⟩

/-- Witness for C9: after the example settlement every operation on the
terminated instance is rejected. -/
theorem C9_witness :
    exampleSettled.terminated = true ∧
    insert_asset exampleSettled 3 8 30 = .error .terminatedInstance ∧
    buyer_deposit_money exampleSettled 3 1 5 = .error .terminatedInstance ∧
    settle exampleSettled 3 1 = .error .terminatedInstance ∧
    get_asset_data exampleSettled 1 = .error .terminatedInstance ∧
    check_fund exampleSettled 1 = .error .terminatedInstance ∧
    total_status exampleSettled 1 = .error .terminatedInstance :=
  C9_terminality exampleFunded exampleSettled 1 2 3 1 8 30 5 rfl

/-- C10: in every reachable state every vector stored in the seller asset
table and in the buyer asset table has length exactly one, so the index-0
accesses in `total_status` and `settle` are always in bounds: neither
operation can fail with an out-of-range index. -/
theorem C10_singleton_vectors_index_safe
    (s : SimpleContract) (hr : Reachable s) (a caller id : AccountId)
    (l : List (Hash × Balance)) :
    (s.seller_asset a = some l → l.length = 1) ∧
    (s.buyer_asset a = some l → l.length = 1) ∧
    total_status s id ≠ .error .indexOutOfBounds ∧
    settle s caller id ≠ .error .indexOutOfBounds := by
  obtain ⟨hsa, hba, -⟩ := reachable_inv hr
  refine ⟨hsa a l, hba a l, ?_, ?_⟩
  · unfold total_status
    by_cases ht : s.terminated = true
    · simp [ht]
    · rw [if_neg ht]
      by_cases h1 : id = s.seller
      · rw [if_pos h1]
        cases hx : s.seller_asset id with
        | none => simp
        | some x =>
          have hlen := hsa id x hx
          cases x with
          | nil => simp at hlen
          | cons hd tl =>
            cases tl with
            | nil =>
              obtain ⟨ih, ip⟩ := hd
              simp [hx]
            | cons h2 t2 => simp at hlen
      · rw [if_neg h1]
        by_cases h2 : id = s.buyer
        · rw [if_pos h2]
          cases hx : s.buyer_asset id with
          | none => simp
          | some x =>
            have hlen := hba id x hx
            cases x with
            | nil => simp at hlen
            | cons hd tl =>
              cases tl with
              | nil =>
                obtain ⟨ih, ip⟩ := hd
                simp [hx]
              | cons h3 t3 => simp at hlen
        · simp [h2]
  · unfold settle
    by_cases ht : s.terminated = true
    · simp [ht]
    · rw [if_neg ht]
      cases hsac : s.seller_asset caller with
      | none =>
        cases hbf : s.buyer_fund id with
        | none => simp
        | some fund => simp
      | some l2 =>
        cases hbf : s.buyer_fund id with
        | none => simp
        | some fund =>
          have hlen := hsa caller l2 hsac
          cases l2 with
          | nil => simp at hlen
          | cons hd tl =>
            obtain ⟨ih, ip⟩ := hd
            by_cases hlt : fund < ip
            · simp [hlt]
            · simp [hlt]

/-- Witness for C10: in the reachable state `new_sell 1 7 20` the stored
vector is a singleton and neither `total_status` nor `settle` can fail with an
out-of-range index. -/
theorem C10_witness :
    ([(7, 20)] : List (Hash × Balance)).length = 1 ∧
    total_status (new_sell 1 7 20) 1 ≠ .error .indexOutOfBounds ∧
    settle (new_sell 1 7 20) 1 1 ≠ .error .indexOutOfBounds := by
  have h := C10_singleton_vectors_index_safe (new_sell 1 7 20)
    (Reachable.newSell 1 7 20) 1 1 1 [(7, 20)]
  exact ⟨h.1 rfl, h.2.2.1, h.2.2.2⟩

end Escrow
